import Mathlib

/-!
Verification of the psd-mcp-server core algorithms (src/index.ts) against its
natural-language specification.

Shallow embedding conventions:
* JS numbers are modelled as `ℚ` (exact rational arithmetic); integer-valued
  intermediate results of `Math.round`/`Math.floor` are `ℤ`.
* Absent/`undefined` fields are `Option _`; JS truthiness checks on object
  fields become `Option.isSome`.
* Strings are Lean `String`s; `String.mk`/`.data` expose the character list.
-/

namespace PsdMcp

/-- Models JS `Math.floor` on a rational: `⌊x⌋`, computed as `num.fdiv den`
so that it kernel-reduces on concrete inputs (the denominator of a `Rat`
is always positive). -/
def jsFloor (x : ℚ) : ℤ := x.num.fdiv x.den

/-- Models JS `Math.round`: round half toward +∞, i.e. `⌊x + 1/2⌋`. -/
def jsRound (x : ℚ) : ℤ := jsFloor (x + 1/2)

/-- The helper `jsFloor` agrees with Mathlib's floor on `ℚ`. -/
theorem jsFloor_eq_floor (x : ℚ) : jsFloor x = ⌊x⌋ := by
  rw [jsFloor, Int.fdiv_eq_ediv _ (by positivity), Rat.floor_def]

/-- Hex digit characters as produced by JS `Number.prototype.toString(16)`
(lower case). -/
def hexDigitChar (n : ℕ) : Char :=
  if n < 10 then Char.ofNat (48 + n) else Char.ofNat (97 + (n - 10))

/-- Big-endian hex digits of `n`, with `fuel ≥ n` steps of fuel so the
definition is structurally recursive (hence kernel-reducible). -/
def natToHexAux : ℕ → ℕ → List Char
  | 0, _ => []
  | _ + 1, 0 => []
  | fuel + 1, n => natToHexAux fuel (n / 16) ++ [hexDigitChar (n % 16)]

/-- Models JS `n.toString(16)` for a nonnegative integer: lower-case hex
digits, no leading zeros, `"0"` for zero. -/
def natToHex (n : ℕ) : String := if n = 0 then "0" else ⟨natToHexAux n n⟩

/-- Models JS `z.toString(16)` for an integer (negative values are rendered
with a leading minus sign, as in JS). -/
def intToHex (z : ℤ) : String :=
  if z < 0 then "-" ++ natToHex z.natAbs else natToHex z.toNat

/-- Models JS `s.padStart(2, "0")`. -/
def padStart2 (s : String) : String :=
  if 2 ≤ s.length then s else ⟨List.replicate (2 - s.length) '0' ++ s.data⟩

/-- Models JS `String.prototype.toUpperCase` on ASCII strings. -/
def jsToUpper (s : String) : String := ⟨s.data.map Char.toUpper⟩

/-- Models JS `String.prototype.toLowerCase` on ASCII strings. -/
def jsToLower (s : String) : String := ⟨s.data.map Char.toLower⟩

/-- Whether `needle` occurs as a contiguous sublist of `hay`. -/
def listIsInfixB (needle hay : List Char) : Bool :=
  match hay with
  | [] => needle.isEmpty
  | c :: t => needle.isPrefixOf (c :: t) || listIsInfixB needle t

/-- Models JS `s.includes(sub)` (substring containment). -/
def jsIncludes (s sub : String) : Bool := listIsInfixB sub.data s.data

/-- Models JS `s || dflt` for strings (the empty string is falsy). -/
def jsOrString (o : Option String) (dflt : String) : String :=
  match o with
  | some s => if s.isEmpty then dflt else s
  | none => dflt

/-- Clamp an integer channel value to `[0, 255]`
(`Math.max(0, Math.min(255, z))`). -/
def clamp255 (z : ℤ) : ℤ := max 0 (min 255 z)

/-- Clamp a rational value to `[0, 255]`
(`Math.max(0, Math.min(255, x))`). -/
def clamp255Q (x : ℚ) : ℚ := max 0 (min 255 x)

/-!
## Raw color values

The raw format carries no discriminant tag; `anyColorToHex` dispatches on
which fields are present, in a fixed priority order (`fr`/`fg`/`fb`, then
`r`/`g`/`b`, then `k` without `c`, then `h`/`s`/`b`, then `l`/`a`, then
`c`/`m`/`y`/`k`).  Each constructor below is one of those field shapes, so
the match order of the Lean functions coincides with the source's
field-presence checks.
-/

inductive RawColor where
  /-- Field shape `{fr, fg, fb}`: fractional RGB in `[0,1]`. -/
  | frgb (fr fg fb : ℚ)
  /-- Field shape `{r, g, b}`: integer RGB in `[0,255]`. -/
  | rgb (r g b : ℚ)
  /-- Field shape `{k}`: grayscale (a `k` field and no `c` field). -/
  | gray (k : ℚ)
  /-- Field shape `{h, s, b}`: HSB. -/
  | hsb (h s b : ℚ)
  /-- Field shape `{l, a, b}`: Lab. -/
  | lab (l a b : ℚ)
  /-- Field shape `{c, m, y, k}`: CMYK. -/
  | cmyk (c m y k : ℚ)
  /-- an object of none of the recognized shapes. -/
  | unrecognized
  deriving DecidableEq

/-- The rounded integer RGB triple computed by `anyColorToHex` before the
final clamp, or `none` when no shape matches (mirrors the branch bodies of
`anyColorToHex` in src/index.ts). -/
def anyColorToRgb : RawColor → Option (ℤ × ℤ × ℤ)
  | .frgb fr fg fb => some (jsRound (fr * 255), jsRound (fg * 255), jsRound (fb * 255))
  | .rgb r g b => some (jsRound r, jsRound g, jsRound b)
  | .gray k =>
      let gray := jsRound ((1 - k) * 255)
      some (gray, gray, gray)
  | .hsb h s bb =>
      let h' := h / 360
      let i : ℤ := jsFloor (h' * 6)
      let f : ℚ := h' * 6 - i
      let v := bb
      let p := v * (1 - s)
      let q := v * (1 - f * s)
      let t := v * (1 - (1 - f) * s)
      -- JS `switch (i % 6)` uses the sign-of-dividend remainder (`Int.tmod`);
      -- for negative `i` no case matches and the default sets r = g = b = 0.
      let rgbq : ℚ × ℚ × ℚ :=
        match Int.tmod i 6 with
        | 0 => (v * 255, t * 255, p * 255)
        | 1 => (q * 255, v * 255, p * 255)
        | 2 => (p * 255, v * 255, t * 255)
        | 3 => (p * 255, q * 255, v * 255)
        | 4 => (t * 255, p * 255, v * 255)
        | 5 => (v * 255, p * 255, q * 255)
        | _ => (0, 0, 0)
      some (jsRound rgbq.1, jsRound rgbq.2.1, jsRound rgbq.2.2)
  | .lab l a bb =>
      let y := (l + 16) / 116
      let x := a / 500 + y
      let z := y - bb / 200
      let x3 := x * x * x
      let y3 := y * y * y
      let z3 := z * z * z
      let xn := if x3 > 0.008856 then x3 else (x - 16 / 116) / 7.787
      let yn := if y3 > 0.008856 then y3 else (y - 16 / 116) / 7.787
      let zn := if z3 > 0.008856 then z3 else (z - 16 / 116) / 7.787
      let xr := xn * 0.95047
      let yr := yn * 1.0
      let zr := zn * 1.08883
      some
        (jsRound (clamp255Q ((xr * 3.2406 + yr * (-1.5372) + zr * (-0.4986)) * 255)),
         jsRound (clamp255Q ((xr * (-0.9689) + yr * 1.8758 + zr * 0.0415) * 255)),
         jsRound (clamp255Q ((xr * 0.0557 + yr * (-0.204) + zr * 1.057) * 255)))
  | .cmyk c m y k =>
      some
        (jsRound (255 * (1 - c) * (1 - k)),
         jsRound (255 * (1 - m) * (1 - k)),
         jsRound (255 * (1 - y) * (1 - k)))
  | .unrecognized => none

/-- Function `anyColorToHex` from src/index.ts: convert any raw color value to a
canonical uppercase hex string, or `null` (`none`) when the value is absent
or matches no recognized shape.  Each channel is clamped to `[0,255]`
after rounding, formatted as two lower-case hex digits
(`toString(16).padStart(2, "0")`), and the assembled string is upper-cased.
`formatHexUpper` is that final clamp-and-format step. -/
def formatHexUpper (r g b : ℤ) : String :=
  jsToUpper
    ("#" ++ padStart2 (intToHex (clamp255 r)) ++ padStart2 (intToHex (clamp255 g)) ++
      padStart2 (intToHex (clamp255 b)))

def anyColorToHex (color : Option RawColor) : Option String :=
  match color with
  | none => none
  | some c => (anyColorToRgb c).map fun t => formatHexUpper t.1 t.2.1 t.2.2

/-- Function `colorToHex` from src/index.ts: the tree builder's own color helper.
It handles only the fractional-RGB and integer-RGB shapes, performs no
clamping, and does not upper-case its output. -/
def colorToHex (color : Option RawColor) : Option String :=
  match color with
  | none => none
  | some (.frgb fr fg fb) =>
      some
        ("#" ++ padStart2 (intToHex (jsRound (fr * 255))) ++
          padStart2 (intToHex (jsRound (fg * 255))) ++ padStart2 (intToHex (jsRound (fb * 255))))
  | some (.rgb r g b) =>
      some
        ("#" ++ padStart2 (intToHex (jsRound r)) ++ padStart2 (intToHex (jsRound g)) ++
          padStart2 (intToHex (jsRound b)))
  | some _ => none

/-- An uppercase hexadecimal digit. -/
def isUpperHexDigit (c : Char) : Bool :=
  ('0' ≤ c && c ≤ '9') || ('A' ≤ c && c ≤ 'F')

/-- A well-formed canonical hex color: `#` followed by exactly six
uppercase hex digits. -/
def wellFormedHex (s : String) : Bool :=
  match s.data with
  | c :: rest => c == '#' && rest.length == 6 && rest.all isUpperHexDigit
  | [] => false

/-!
## Raw decoded layer tree (the ag-psd `Layer` shape, restricted to the
fields the program reads)
-/

/-- One knot of a bezier path.  The source reads the six-element `points`
array as `[prevAnchorX, prevAnchorY, anchorX, anchorY, nextAnchorX,
nextAnchorY]`; fields `p0`–`p5` are those six entries. -/
structure Knot where
  p0 : ℚ
  p1 : ℚ
  p2 : ℚ
  p3 : ℚ
  p4 : ℚ
  p5 : ℚ
  deriving DecidableEq

/-- A bezier sub-path: knot list plus the `open` flag (renamed `isOpen`
because `open` is a Lean keyword). -/
structure BezierPath where
  knots : List Knot
  isOpen : Bool
  deriving DecidableEq

/-- Record `layer.vectorMask`: carries the sub-path list. -/
structure VectorMask where
  paths : List BezierPath
  deriving DecidableEq

/-- A gradient stop (`{ color }`); `color` may be absent. -/
structure ColorStop where
  color : Option RawColor
  deriving DecidableEq

/-- A gradient descriptor carrying `name` and `colorStops` (the fields
`addGradient` reads). -/
structure GradientDesc where
  name : Option String
  colorStops : List ColorStop
  deriving DecidableEq

/-- Type `VectorContent`: a solid color (`type === "color"`), a gradient (an
object with a `colorStops` field), or some other content (e.g. a pattern)
with neither. -/
inductive VectorContent where
  | color (c : RawColor)
  | gradient (g : GradientDesc)
  | other
  deriving DecidableEq

/-- Record `{ value }` as in `stroke.lineWidth?.value`. -/
structure UnitsValue where
  value : ℚ
  deriving DecidableEq

/-- Record `layer.vectorStroke`. -/
structure VectorStroke where
  content : Option VectorContent
  lineWidth : Option UnitsValue
  lineCapType : Option String
  lineJoinType : Option String
  strokeEnabled : Option Bool
  deriving DecidableEq

/-- A shadow-style effect entry (`{ enabled, color }`). -/
structure ShadowEffect where
  enabled : Option Bool
  color : Option RawColor
  deriving DecidableEq

/-- A stroke effect entry (`{ enabled, color, gradient }`). -/
structure StrokeEffect where
  enabled : Option Bool
  color : Option RawColor
  gradient : Option GradientDesc
  deriving DecidableEq

/-- A gradient-overlay effect entry (`{ enabled, gradient }`). -/
structure OverlayEffect where
  enabled : Option Bool
  gradient : Option GradientDesc
  deriving DecidableEq

/-- Record `layer.effects` with the nine categories the harvester visits. -/
structure LayerEffects where
  dropShadow : Option (List ShadowEffect)
  innerShadow : Option (List ShadowEffect)
  outerGlow : Option ShadowEffect
  innerGlow : Option ShadowEffect
  solidFill : Option (List ShadowEffect)
  stroke : Option (List StrokeEffect)
  satin : Option ShadowEffect
  gradientOverlay : Option (List OverlayEffect)
  deriving DecidableEq

/-- Record `layer.text.style` (the fields the program reads). -/
structure RawTextStyle where
  fontName : Option String
  fontSize : Option ℚ
  fillColor : Option RawColor
  leading : Option ℚ
  tracking : Option ℚ
  deriving DecidableEq

/-- Record `layer.text`: `text` is the content string, `style` the styling record.
`fontName` stands for `style.font?.name`. -/
structure RawText where
  text : Option String
  style : Option RawTextStyle
  deriving DecidableEq

/-- A raw decoded layer.  `childrenPresent` models whether the JS `children`
field is present at all (an empty array is still truthy in JS, so presence
and emptiness are distinguished); when the field is absent the program never
reads the list. -/
inductive RawLayer where
  | mk (name : Option String) (hidden : Option Bool) (opacity : Option ℚ)
      (left top right bottom : Option ℤ) (text : Option RawText) (canvas : Bool)
      (vectorMask : Option VectorMask) (vectorStroke : Option VectorStroke)
      (vectorFill : Option VectorContent) (effects : Option LayerEffects)
      (childrenPresent : Bool) (children : List RawLayer)

def RawLayer.name : RawLayer → Option String
  | ⟨n, _, _, _, _, _, _, _, _, _, _, _, _, _, _⟩ => n

def RawLayer.hidden : RawLayer → Option Bool
  | ⟨_, h, _, _, _, _, _, _, _, _, _, _, _, _, _⟩ => h

def RawLayer.opacity : RawLayer → Option ℚ
  | ⟨_, _, o, _, _, _, _, _, _, _, _, _, _, _, _⟩ => o

def RawLayer.text : RawLayer → Option RawText
  | ⟨_, _, _, _, _, _, _, t, _, _, _, _, _, _, _⟩ => t

def RawLayer.canvas : RawLayer → Bool
  | ⟨_, _, _, _, _, _, _, _, c, _, _, _, _, _, _⟩ => c

def RawLayer.vectorMask : RawLayer → Option VectorMask
  | ⟨_, _, _, _, _, _, _, _, _, v, _, _, _, _, _⟩ => v

def RawLayer.vectorStroke : RawLayer → Option VectorStroke
  | ⟨_, _, _, _, _, _, _, _, _, _, v, _, _, _, _⟩ => v

def RawLayer.vectorFill : RawLayer → Option VectorContent
  | ⟨_, _, _, _, _, _, _, _, _, _, _, v, _, _, _⟩ => v

def RawLayer.effects : RawLayer → Option LayerEffects
  | ⟨_, _, _, _, _, _, _, _, _, _, _, _, e, _, _⟩ => e

def RawLayer.childrenPresent : RawLayer → Bool
  | ⟨_, _, _, _, _, _, _, _, _, _, _, _, _, p, _⟩ => p

def RawLayer.children : RawLayer → List RawLayer
  | ⟨_, _, _, _, _, _, _, _, _, _, _, _, _, _, c⟩ => c

/-!
## Canonical layer tree (the `LayerInfo` shape)
-/

inductive LayerType where
  | text
  | image
  | shape
  | group
  | unknown
  deriving DecidableEq

structure Bounds where
  left : ℤ
  top : ℤ
  width : ℤ
  height : ℤ
  deriving DecidableEq

structure TextInfo where
  content : String
  font : Option String
  fontSize : Option ℚ
  color : Option String
  lineHeight : Option ℚ
  letterSpacing : Option ℚ
  deriving DecidableEq

/-- A canonical layer (`LayerInfo` in src/index.ts).  `children = none`
models an absent `children` field in the produced object. -/
inductive LayerInfo where
  | mk (name : String) (type : LayerType) (visible : Bool) (opacity : ℚ)
      (bounds : Bounds) (text : Option TextInfo) (children : Option (List LayerInfo))

def LayerInfo.name : LayerInfo → String
  | ⟨n, _, _, _, _, _, _⟩ => n

def LayerInfo.type : LayerInfo → LayerType
  | ⟨_, t, _, _, _, _, _⟩ => t

def LayerInfo.visible : LayerInfo → Bool
  | ⟨_, _, v, _, _, _, _⟩ => v

def LayerInfo.opacity : LayerInfo → ℚ
  | ⟨_, _, _, o, _, _, _⟩ => o

def LayerInfo.bounds : LayerInfo → Bounds
  | ⟨_, _, _, _, b, _, _⟩ => b

def LayerInfo.text : LayerInfo → Option TextInfo
  | ⟨_, _, _, _, _, t, _⟩ => t

def LayerInfo.children : LayerInfo → Option (List LayerInfo)
  | ⟨_, _, _, _, _, _, c⟩ => c

/-- The text block built by `extractLayerInfo` for a text layer. -/
def extractTextInfo (t : RawText) : TextInfo :=
  { content := jsOrString t.text ""
    font := t.style.bind (·.fontName)
    fontSize := t.style.bind (·.fontSize)
    color := colorToHex (t.style.bind (·.fillColor))
    lineHeight := t.style.bind (·.leading)
    letterSpacing := t.style.bind (·.tracking) }

mutual

/-- Function `extractLayerInfo` from src/index.ts: builds one canonical layer from a
raw layer, classifying its type by the first matching predicate
(text ≻ group ≻ image ≻ shape ≻ unknown) and recursing into children. -/
def extractLayerInfo : RawLayer → LayerInfo
  | .mk name hidden opacity left top right bottom text canvas vMask vStroke _vFill _fx
      chPresent children =>
    let bounds : Bounds :=
      { left := left.getD 0
        top := top.getD 0
        width := right.getD 0 - left.getD 0
        height := bottom.getD 0 - top.getD 0 }
    let type : LayerType :=
      if text.isSome then .text
      else if chPresent && !children.isEmpty then .group
      else if canvas then .image
      else if vMask.isSome || vStroke.isSome then .shape
      else .unknown
    .mk (jsOrString name "Unnamed") type (!hidden.getD false)
      (match opacity with
        | some v => v / 255
        | none => 1)
      bounds (text.map extractTextInfo)
      (if chPresent && !children.isEmpty then some (extractLayerInfoList children) else none)

def extractLayerInfoList : List RawLayer → List LayerInfo
  | [] => []
  | l :: ls => extractLayerInfo l :: extractLayerInfoList ls

end

/-!
## Vector path conversion and SVG export
-/

/-- Models JS `n.toFixed(2)` for a nonnegative rational: the integer nearest
to `x*100` (ties toward the larger integer) rendered with two digits after
the decimal point. -/
def toFixed2Nonneg (x : ℚ) : String :=
  let n := (jsFloor (x * 100 + 1/2)).toNat
  toString (n / 100) ++ "." ++ (if n % 100 < 10 then "0" else "") ++ toString (n % 100)

/-- Models JS `x.toFixed(2)`: for negative `x` the sign is emitted first and
the digits are computed from `-x` (per the ECMAScript `toFixed` algorithm). -/
def toFixed2 (x : ℚ) : String :=
  if x < 0 then "-" ++ toFixed2Nonneg (-x) else toFixed2Nonneg x

/-- The `M`-command: move to the first knot's anchor point, coordinates
scaled by document width/height (`scaleX`/`scaleY` in the source). -/
def moveCmd (k : Knot) (width height : ℕ) : String :=
  "M " ++ toFixed2 (k.p2 * width) ++ " " ++ toFixed2 (k.p3 * height)

/-- The `C`-command from knot `k` to knot `next`: control points are `k`'s
next-anchor and `next`'s prev-anchor, the endpoint `next`'s anchor. -/
def curveCmd (k next : Knot) (width height : ℕ) : String :=
  "C " ++ toFixed2 (k.p4 * width) ++ " " ++ toFixed2 (k.p5 * height) ++ ", " ++
    toFixed2 (next.p0 * width) ++ " " ++ toFixed2 (next.p1 * height) ++ ", " ++
    toFixed2 (next.p2 * width) ++ " " ++ toFixed2 (next.p3 * height)

/-- The command strings one `BezierPath` contributes in
`bezierPathsToSvgPath`: nothing for an empty knot list; otherwise a move-to,
then one curve per loop index `i` pairing knot `i` with knot `(i+1) % n`
(the JS `break` on an open path's last index is modelled by skipping that
index, which is equivalent since it is the final iteration), then `Z` when
the path is not open. -/
def bezierPathParts (bp : BezierPath) (width height : ℕ) : List String :=
  match bp.knots with
  | [] => []
  | k0 :: ks =>
    let knots := k0 :: ks
    let segs := (List.range knots.length).filterMap fun i =>
      if bp.isOpen && i == knots.length - 1 then none
      else
        some (curveCmd (knots.getD i k0) (knots.getD ((i + 1) % knots.length) k0) width height)
    moveCmd k0 width height :: segs ++ if bp.isOpen then [] else ["Z"]

/-- All command strings pushed into `pathData`, across sub-paths in order. -/
def bezierPathsToSvgPathParts (paths : List BezierPath) (width height : ℕ) : List String :=
  match paths with
  | [] => []
  | p :: ps => bezierPathParts p width height ++ bezierPathsToSvgPathParts ps width height

/-- Function `bezierPathsToSvgPath` from src/index.ts: the `pathData` strings joined
with single spaces. -/
def bezierPathsToSvgPath (paths : List BezierPath) (width height : ℕ) : String :=
  String.intercalate " " (bezierPathsToSvgPathParts paths width height)

/-- Function `vectorContentToColor` from src/index.ts: a CSS `rgb(...)` string for
solid color content whose color has an `r` field (the integer-RGB shape);
`undefined` for everything else. -/
def vectorContentToColor : Option VectorContent → Option String
  | none => none
  | some (.color c) =>
    match c with
    | .rgb r g b =>
        some
          ("rgb(" ++ toString (jsRound r) ++ ", " ++ toString (jsRound g) ++ ", " ++
            toString (jsRound b) ++ ")")
    | _ => none
  | some _ => none

/-- The lines of the SVG document built by `vectorLayerToSvg`, or the
`"Layer does not have vector data"` error thrown when the layer has no
vector mask.  The `svgParts` array of the source is modelled directly; the
final document joins these lines with newlines. -/
def vectorLayerToSvgParts (layer : RawLayer) (width height : ℕ) :
    Except String (List String) :=
  match layer.vectorMask with
  | none => .error "Layer does not have vector data"
  | some vm =>
    let svgPath := bezierPathsToSvgPath vm.paths width height
    -- `vectorContentToColor(layer.vectorFill) || "#000000"` (the helper never
    -- returns an empty string, so JS falsiness coincides with absence)
    let fillColor := (vectorContentToColor layer.vectorFill).getD "#000000"
    let stroke := layer.vectorStroke
    let strokeColor :=
      match stroke with
      | some s =>
        match s.content with
        | some c => vectorContentToColor (some c)
        | none => none
      | none => none
    -- `stroke?.lineWidth?.value || 0`
    let strokeWidth : ℚ :=
      match stroke with
      | some s =>
        match s.lineWidth with
        | some lw => lw.value
        | none => 0
      | none => 0
    -- `stroke?.strokeEnabled !== false && strokeWidth > 0`
    let strokeEnabled :=
      (match stroke with
        | some s => !(s.strokeEnabled == some false)
        | none => true) &&
        decide (0 < strokeWidth)
    let capLines :=
      match stroke with
      | some s =>
        match s.lineCapType with
        | some cap => if cap.isEmpty then [] else ["        stroke-linecap=\"" ++ cap ++ "\""]
        | none => []
      | none => []
    let joinLines :=
      match stroke with
      | some s =>
        match s.lineJoinType with
        | some j => if j.isEmpty then [] else ["        stroke-linejoin=\"" ++ j ++ "\""]
        | none => []
      | none => []
    let strokeLines :=
      match strokeColor, strokeEnabled with
      | some sc, true =>
        -- `${strokeWidth}`: JS prints the numeric value; integer-valued
        -- widths (the only case any claim touches) print as their integer
        -- digits, which `toString strokeWidth.num` reproduces exactly
        ["        stroke=\"" ++ sc ++ "\"",
            "        stroke-width=\"" ++ toString strokeWidth.num ++ "\""] ++
          capLines ++ joinLines
      | _, _ => []
    .ok
      (["<?xml version=\"1.0\" encoding=\"UTF-8\"?>",
          "<svg xmlns=\"http://www.w3.org/2000/svg\" width=\"" ++ toString width ++
            "\" height=\"" ++ toString height ++ "\" viewBox=\"0 0 " ++ toString width ++ " " ++
            toString height ++ "\">",
          "  <path d=\"" ++ svgPath ++ "\"",
          "        fill=\"" ++ (if layer.vectorFill.isSome then fillColor else "none") ++ "\""] ++
        strokeLines ++ ["  />", "</svg>"])

/-- Function `vectorLayerToSvg` from src/index.ts: the joined SVG text. -/
def vectorLayerToSvg (layer : RawLayer) (width height : ℕ) : Except String String :=
  (vectorLayerToSvgParts layer width height).map (String.intercalate "\n")

/-!
## Color harvesting (`extractColorsFromLayer` / `extractAllColors`)
-/

/-- Value of one hex digit character (the inputs are always digits produced
by `anyColorToHex`, so the catch-all 0 is never reached). -/
def hexDigitVal (c : Char) : ℕ :=
  if '0' ≤ c ∧ c ≤ '9' then c.toNat - 48
  else if 'a' ≤ c ∧ c ≤ 'f' then c.toNat - 87
  else if 'A' ≤ c ∧ c ≤ 'F' then c.toNat - 55
  else 0

/-- Value of `parseInt` on a two-hex-digit slice. -/
def parseHexPair (a b : Char) : ℕ := 16 * hexDigitVal a + hexDigitVal b

/-- The `{r, g, b}` record recovered from a canonical `#RRGGBB` hex with
`parseInt(hex.slice(1,3),16)` etc.; inputs always have the 7-character
canonical shape, so the catch-all is never reached. -/
def rgbOfHex (s : String) : ℕ × ℕ × ℕ :=
  match s.data with
  | _ :: r1 :: r2 :: g1 :: g2 :: b1 :: b2 :: _ =>
    (parseHexPair r1 r2, parseHexPair g1 g2, parseHexPair b1 b2)
  | _ => (0, 0, 0)

structure ExtractedColor where
  hex : String
  rgb : ℕ × ℕ × ℕ
  source : String
  layerName : String
  deriving DecidableEq

structure GradientInfo where
  name : Option String
  colors : List String
  source : String
  layerName : String
  deriving DecidableEq

structure ColorPalette where
  solidColors : List ExtractedColor
  gradients : List GradientInfo
  uniqueColors : List String

/-- The `addColor` closure: record a solid color only when normalization
succeeds, with the rgb triple parsed back out of the hex. -/
def addColorEntries (layerName : String) (color : Option RawColor) (src : String) :
    List ExtractedColor :=
  match anyColorToHex color with
  | some hex => [{ hex := hex, rgb := rgbOfHex hex, source := src, layerName := layerName }]
  | none => []

/-- The `addGradient` closure: map every stop through the normalizer,
filter out failures, and record only when at least one stop normalized. -/
def addGradientEntries (layerName : String) (g : GradientDesc) (src : String) :
    List GradientInfo :=
  let cols := g.colorStops.filterMap fun stop => anyColorToHex stop.color
  if cols.isEmpty then []
  else [{ name := g.name, colors := cols, source := src, layerName := layerName }]

/-- Source tags for indexed effect arrays:
`` `drop-shadow${i > 0 ? `-${i+1}` : ""}` ``. -/
def indexedSource (base : String) (i : ℕ) : String :=
  base ++ (if 0 < i then "-" ++ toString (i + 1) else "")

/-- Colors contributed by an effect array of `{enabled, color}` entries
(drop shadows, inner shadows, solid-fill overlays). -/
def shadowListEntries (layerName base : String) (l : List ShadowEffect) :
    List ExtractedColor :=
  (l.enum.map fun p =>
      if !(p.2.enabled == some false) && p.2.color.isSome then
        addColorEntries layerName p.2.color (indexedSource base p.1)
      else []).flatten

/-- Colors contributed by a singular `{enabled, color}` effect (outer glow,
inner glow, satin); an absent effect contributes nothing because
`effects.x?.color` is then undefined. -/
def singleEffectEntries (layerName src : String) (e : Option ShadowEffect) :
    List ExtractedColor :=
  match e with
  | some g =>
    if !(g.enabled == some false) && g.color.isSome then addColorEntries layerName g.color src
    else []
  | none => []

/-- Colors and gradients contributed by the stroke-effect array (one entry
may carry both a color and a gradient). -/
def strokeEffectEntries (layerName : String) (l : List StrokeEffect) :
    List ExtractedColor × List GradientInfo :=
  let pairs := l.enum.map fun p =>
    if !(p.2.enabled == some false) then
      ((match p.2.color with
         | some c => addColorEntries layerName (some c) (indexedSource "stroke-effect" p.1)
         | none => []),
        (match p.2.gradient with
          | some g => addGradientEntries layerName g (indexedSource "stroke-gradient" p.1)
          | none => []))
    else ([], [])
  ((pairs.map Prod.fst).flatten, (pairs.map Prod.snd).flatten)

/-- Gradients contributed by the gradient-overlay array. -/
def overlayEntries (layerName : String) (l : List OverlayEffect) : List GradientInfo :=
  (l.enum.map fun p =>
      if !(p.2.enabled == some false) then
        match p.2.gradient with
        | some g => addGradientEntries layerName g (indexedSource "gradient-overlay" p.1)
        | none => []
      else []).flatten

/-- Function `extractColorsFromLayer` from src/index.ts: the solid colors and
gradients one layer contributes, in the source's fixed extraction order
(text fill, vector fill, vector stroke, then the nine effect categories). -/
def extractColorsFromLayer (layer : RawLayer) (layerName : String) :
    List ExtractedColor × List GradientInfo :=
  let textC :=
    match layer.text with
    | some t =>
      match t.style with
      | some st =>
        match st.fillColor with
        | some c => addColorEntries layerName (some c) "text"
        | none => []
      | none => []
    | none => []
  let vfPair :=
    match layer.vectorFill with
    | some (.color c) => (addColorEntries layerName (some c) "vector-fill", ([] : List GradientInfo))
    | some (.gradient g) => ([], addGradientEntries layerName g "vector-fill-gradient")
    | some .other => ([], [])
    | none => ([], [])
  let vsPair :=
    match layer.vectorStroke with
    | some s =>
      match s.content with
      | some (.color c) =>
        (addColorEntries layerName (some c) "vector-stroke", ([] : List GradientInfo))
      | some (.gradient g) => ([], addGradientEntries layerName g "vector-stroke-gradient")
      | some .other => ([], [])
      | none => ([], [])
    | none => ([], [])
  let fx := layer.effects
  let dropC :=
    shadowListEntries layerName "drop-shadow"
      (match fx with
        | some e => e.dropShadow.getD []
        | none => [])
  let innerC :=
    shadowListEntries layerName "inner-shadow"
      (match fx with
        | some e => e.innerShadow.getD []
        | none => [])
  let outerGlowC :=
    singleEffectEntries layerName "outer-glow"
      (match fx with
        | some e => e.outerGlow
        | none => none)
  let innerGlowC :=
    singleEffectEntries layerName "inner-glow"
      (match fx with
        | some e => e.innerGlow
        | none => none)
  let solidFillC :=
    shadowListEntries layerName "color-overlay"
      (match fx with
        | some e => e.solidFill.getD []
        | none => [])
  let strokePair :=
    strokeEffectEntries layerName
      (match fx with
        | some e => e.stroke.getD []
        | none => [])
  let satinC :=
    singleEffectEntries layerName "satin"
      (match fx with
        | some e => e.satin
        | none => none)
  let overlayG :=
    overlayEntries layerName
      (match fx with
        | some e => e.gradientOverlay.getD []
        | none => [])
  (textC ++ vfPair.1 ++ vsPair.1 ++ dropC ++ innerC ++ outerGlowC ++ innerGlowC ++ solidFillC ++
      strokePair.1 ++ satinC,
    vfPair.2 ++ vsPair.2 ++ strokePair.2 ++ overlayG)

mutual

/-- The recursive `traverse` of `extractAllColors`: each layer contributes
its own colors, then its children's (when the `children` field is present),
then its later siblings'. -/
def extractAllColorsAux : List RawLayer → List ExtractedColor × List GradientInfo
  | [] => ([], [])
  | l :: ls =>
    let own := extractAllColorsHead l
    let rest := extractAllColorsAux ls
    (own.1 ++ rest.1, own.2 ++ rest.2)

/-- One layer's contribution plus (when present) its children subtree's. -/
def extractAllColorsHead : RawLayer → List ExtractedColor × List GradientInfo
  | .mk n hid op lf tp ri bo tx cv vm vs vf fx cp ch =>
    let own :=
      extractColorsFromLayer (.mk n hid op lf tp ri bo tx cv vm vs vf fx cp ch)
        (jsOrString n "Unnamed")
    let child := if cp then extractAllColorsAux ch else ([], [])
    (own.1 ++ child.1, own.2 ++ child.2)

end

/-- JS `Set` insertion: append when not yet present (preserves first
occurrences, in insertion order). -/
def insertUnique (acc : List String) (x : String) : List String :=
  if x ∈ acc then acc else acc ++ [x]

/-- Models `[...new Set(xs)]`: deduplicate, keeping first occurrences. -/
def jsSetDedup (l : List String) : List String := l.foldl insertUnique []

/-- Function `extractAllColors` from src/index.ts.  `uniqueColors` is
`[...new Set(allColors.map(c => c.hex))].sort()`: deduplicate the solid
hexes, then sort; `.sort()` on (hex) strings is the lexicographic ascending
sort, modelled by `insertionSort (· ≤ ·)` (the input is duplicate-free, so
any correct sort produces this list). -/
def extractAllColors (layers : List RawLayer) : ColorPalette :=
  let pair := extractAllColorsAux layers
  { solidColors := pair.1
    gradients := pair.2
    uniqueColors := (jsSetDedup (pair.1.map (·.hex))).insertionSort (· ≤ ·) }

/-!
## Depth-limited tree view (`limitDepth` in the `list_layers` handler)
-/

/-- The synthetic placeholder node reporting the count of elided children
(`{ name: "... (n children)", type: "unknown", visible: true, opacity: 1,
bounds: zeros }` with no `text` and no `children` field). -/
def childPlaceholder (n : ℕ) : LayerInfo :=
  .mk ("... (" ++ toString n ++ " children)") .unknown true 1 ⟨0, 0, 0, 0⟩ none none

/-- The per-node transform applied once `currentDepth >= maxDepth`: children
(if any) are replaced by a single placeholder; a present-but-empty or absent
`children` field becomes absent (`l.children?.length ? [...] : undefined`). -/
def truncateNode : LayerInfo → LayerInfo
  | .mk name ty vis op bd tx ch =>
    .mk name ty vis op bd tx
      (match ch with
        | some (c :: cs) => some [childPlaceholder (c :: cs).length]
        | _ => none)

/-- Function `limitDepth` from the `list_layers` handler in src/index.ts. -/
def limitDepth : List LayerInfo → ℕ → ℕ → List LayerInfo
  | layers, currentDepth, maxDepth =>
    if maxDepth ≤ currentDepth then layers.map truncateNode
    else
      match layers with
      | [] => []
      | .mk name ty vis op bd tx ch :: ls =>
        .mk name ty vis op bd tx
            (match ch with
              | some cs => some (limitDepth cs (currentDepth + 1) maxDepth)
              | none => none) ::
          limitDepth ls currentDepth maxDepth

mutual

/-- Depth of one canonical layer: 0 for a node without a `children` field,
otherwise one more than its children's depth. -/
def layerDepth : LayerInfo → ℕ
  | .mk _ _ _ _ _ _ none => 0
  | .mk _ _ _ _ _ _ (some ch) => 1 + forestDepth ch

/-- Maximum depth over a list of canonical layers. -/
def forestDepth : List LayerInfo → ℕ
  | [] => 0
  | l :: ls => max (layerDepth l) (forestDepth ls)

end

/-!
## Vector layer lookup (`findVectorLayer` / `getAllVectorLayers`)
-/

mutual

/-- Function `findVectorLayer` from src/index.ts: first layer (pre-order) whose name
case-insensitively contains the query AND that has a vector mask; a
name-matching layer without a mask is skipped, but its children are still
searched. -/
def findVectorLayer : List RawLayer → String → Option RawLayer
  | [], _ => none
  | l :: ls, query =>
    match findVectorLayerHead l query with
    | some found => some found
    | none => findVectorLayer ls query

/-- The loop body for a single layer: the layer itself when its name matches
and it has a vector mask; otherwise the result of searching its children
(when the `children` field is present). -/
def findVectorLayerHead : RawLayer → String → Option RawLayer
  | .mk n hid op lf tp ri bo tx cv vm vs vf fx cp ch, query =>
    if (match n with
        | some nm => jsIncludes (jsToLower nm) (jsToLower query)
        | none => false) &&
        vm.isSome then
      some (.mk n hid op lf tp ri bo tx cv vm vs vf fx cp ch)
    else if cp then findVectorLayer ch query
    else none

end

mutual

/-- Function `getAllVectorLayers` from src/index.ts: every layer with a vector mask,
pre-order (node before its children before its later siblings). -/
def getAllVectorLayers : List RawLayer → List RawLayer
  | [] => []
  | l :: ls => getAllVectorLayersHead l ++ getAllVectorLayers ls

def getAllVectorLayersHead : RawLayer → List RawLayer
  | .mk n hid op lf tp ri bo tx cv vm vs vf fx cp ch =>
    (if vm.isSome then [RawLayer.mk n hid op lf tp ri bo tx cv vm vs vf fx cp ch] else []) ++
      (if cp then getAllVectorLayers ch else [])

end

/-!
## Hero classification (the tail of the `get_hero_section` handler)
-/

mutual

/-- Function `getTextLayers` from src/index.ts: all text-typed layers, depth first. -/
def getTextLayers : List LayerInfo → List LayerInfo
  | [] => []
  | l :: ls => getTextLayersHead l ++ getTextLayers ls

/-- One layer's contribution: itself when text-typed, then its subtree's
(when the `children` field is present). -/
def getTextLayersHead : LayerInfo → List LayerInfo
  | .mk n t v o b tx ch =>
    (if t == .text then [LayerInfo.mk n t v o b tx ch] else []) ++
      (match ch with
        | some cs => getTextLayers cs
        | none => [])

end

/-- Models `a.text?.fontSize || 0`: the sort key; absent font sizes count as 0 (a
stored 0 also yields 0, identically). -/
def fontSizeKey (l : LayerInfo) : ℚ :=
  match l.text with
  | some t =>
    match t.fontSize with
    | some s => s
    | none => 0
  | none => 0

/-- Models `[...textLayers].sort((a, b) => sizeB - sizeA)`: a stable descending
sort by font size.  `insertionSort` with this total relation is exactly the
stable descending sort (equal keys keep their original order). -/
def sortByFontSizeDesc (ls : List LayerInfo) : List LayerInfo :=
  ls.insertionSort fun a b => fontSizeKey b ≤ fontSizeKey a

def ctaKeywords : List String := ["button", "cta", "btn", "action", "click", "submit"]

structure HeroResult where
  heading : Option LayerInfo
  subheading : Option LayerInfo
  body : List LayerInfo
  cta : List LayerInfo

/-- The hero categorization of the `get_hero_section` handler: text layers
of the scope sorted descending by font size, first → heading, second →
subheading, rest → body; independently, every direct layer of the scope
whose name case-insensitively contains a CTA keyword is collected into
`cta`, in scope order. -/
def classifyHero (heroLayers : List LayerInfo) : HeroResult :=
  let textLayers := getTextLayers heroLayers
  let sorted := sortByFontSizeDesc textLayers
  { heading := sorted[0]?
    subheading := sorted[1]?
    body := sorted.drop 2
    cta := heroLayers.filter fun l => ctaKeywords.any fun kw => jsIncludes (jsToLower l.name) kw }

theorem natToHexAux_zero (fuel : ℕ) : natToHexAux fuel 0 = [] := by
  cases fuel <;> rfl

theorem natToHexAux_small {fuel n : ℕ} (h0 : n ≠ 0) (h16 : n < 16) (hf : 1 ≤ fuel) :
    natToHexAux fuel n = [hexDigitChar n] := by
  obtain ⟨f, rfl⟩ : ∃ f, fuel = f + 1 := ⟨fuel - 1, by omega⟩
  obtain ⟨k, rfl⟩ : ∃ k, n = k + 1 := ⟨n - 1, by omega⟩
  show natToHexAux f ((k + 1) / 16) ++ [hexDigitChar ((k + 1) % 16)] = _
  rw [Nat.div_eq_of_lt h16, Nat.mod_eq_of_lt h16, natToHexAux_zero]
  rfl

theorem natToHexAux_byte {fuel n : ℕ} (h16 : 16 ≤ n) (h255 : n ≤ 255) (hf : 2 ≤ fuel) :
    natToHexAux fuel n = [hexDigitChar (n / 16), hexDigitChar (n % 16)] := by
  obtain ⟨f, rfl⟩ : ∃ f, fuel = f + 1 := ⟨fuel - 1, by omega⟩
  obtain ⟨k, rfl⟩ : ∃ k, n = k + 1 := ⟨n - 1, by omega⟩
  show natToHexAux f ((k + 1) / 16) ++ [hexDigitChar ((k + 1) % 16)] = _
  rw [natToHexAux_small (by omega) (by omega) (by omega)]
  rfl

/-- For a byte value, `toString(16).padStart(2, "0")` yields exactly the two
hex digits of `n`. -/
theorem padStart2_natToHex_byte {n : ℕ} (h : n ≤ 255) :
    padStart2 (natToHex n) = ⟨[hexDigitChar (n / 16), hexDigitChar (n % 16)]⟩ := by
  by_cases h0 : n = 0
  · subst h0; rfl
  · rw [natToHex, if_neg h0]
    by_cases h16 : n < 16
    · rw [natToHexAux_small h0 h16 (by omega)]
      have : n / 16 = 0 := Nat.div_eq_of_lt h16
      have hm : n % 16 = n := Nat.mod_eq_of_lt h16
      simp [padStart2, String.length, this, hm]
      rfl
    · rw [natToHexAux_byte (by omega) h (by omega)]
      simp [padStart2, String.length]

theorem clamp255_bounds (z : ℤ) : 0 ≤ clamp255 z ∧ clamp255 z ≤ 255 := by
  unfold clamp255; omega

theorem clamp255_eq_self {z : ℤ} (h0 : 0 ≤ z) (h255 : z ≤ 255) : clamp255 z = z := by
  unfold clamp255; omega

theorem isUpperHexDigit_toUpper_hexDigitChar {n : ℕ} (h : n < 16) :
    isUpperHexDigit (Char.toUpper (hexDigitChar n)) = true := by
  have : ∀ m : Fin 16, isUpperHexDigit (Char.toUpper (hexDigitChar m.val)) = true := by decide
  exact this ⟨n, h⟩

/-- Every string `formatHexUpper` produces is a well-formed canonical hex
color. -/
theorem wellFormedHex_formatHexUpper (r g b : ℤ) :
    wellFormedHex (formatHexUpper r g b) = true := by
  have fmt : ∀ z : ℤ,
      padStart2 (intToHex (clamp255 z)) =
        ⟨[hexDigitChar ((clamp255 z).toNat / 16), hexDigitChar ((clamp255 z).toNat % 16)]⟩ := by
    intro z
    obtain ⟨h0, h255⟩ := clamp255_bounds z
    rw [intToHex, if_neg (by omega)]
    exact padStart2_natToHex_byte (by omega)
  have hd : ∀ z : ℤ, (clamp255 z).toNat / 16 < 16 ∧ (clamp255 z).toNat % 16 < 16 := by
    intro z
    obtain ⟨h0, h255⟩ := clamp255_bounds z
    constructor
    · omega
    · exact Nat.mod_lt _ (by omega)
  unfold formatHexUpper jsToUpper
  rw [fmt r, fmt g, fmt b]
  simp only [String.data_append]
  show wellFormedHex ⟨List.map Char.toUpper ('#' :: _)⟩ = true
  simp only [List.map_cons, List.map_append, wellFormedHex]
  have h35 : Char.toUpper '#' = '#' := by decide
  rw [h35]
  obtain ⟨hr1, hr2⟩ := hd r
  obtain ⟨hg1, hg2⟩ := hd g
  obtain ⟨hb1, hb2⟩ := hd b
  simp [isUpperHexDigit_toUpper_hexDigitChar, hr1, hr2, hg1, hg2, hb1, hb2]

/-- C1. For every raw color input, `anyColorToHex` returns either `none` or a
well-formed 6-hex-digit uppercase string (each channel clamped to `[0,255]`);
in particular `{r:26,g:26,b:26}` normalizes to `#1A1A1A`, `{fr:1,fg:0,fb:0}`
to `#FF0000`, and CMYK `{c:0,m:0,y:0,k:1}` to `#000000`. -/
theorem claim_C1 :
    (∀ color : Option RawColor, (anyColorToHex color).all wellFormedHex = true) ∧
    anyColorToHex (some (.rgb 26 26 26)) = some "#1A1A1A" ∧
    anyColorToHex (some (.frgb 1 0 0)) = some "#FF0000" ∧
    anyColorToHex (some (.cmyk 0 0 0 1)) = some "#000000" := by
  refine ⟨?_, ?_, ?_, ?_⟩
  · intro color
    match color with
    | none => rfl
    | some c =>
      match h : anyColorToRgb c with
      | none => simp [anyColorToHex, h]
      | some t => simp [anyColorToHex, h, wellFormedHex_formatHexUpper]
  · have h : anyColorToRgb (.rgb 26 26 26) = some (26, 26, 26) := by
      simp [anyColorToRgb, jsRound, jsFloor_eq_floor]
      norm_num
    simp only [anyColorToHex, h, Option.map_some]
    decide
  · have h : anyColorToRgb (.frgb 1 0 0) = some (255, 0, 0) := by
      simp [anyColorToRgb, jsRound, jsFloor_eq_floor]
      norm_num
    simp only [anyColorToHex, h, Option.map_some]
    decide
  · have h : anyColorToRgb (.cmyk 0 0 0 1) = some (0, 0, 0) := by
      simp [anyColorToRgb, jsRound, jsFloor_eq_floor]
      norm_num
    simp only [anyColorToHex, h, Option.map_some]
    decide

/-- C2. `extractLayerInfo` assigns exactly one kind per layer, by the strict
precedence text ≻ group ≻ image ≻ shape ≻ unknown (first match wins); in
particular a layer with both text content and children is classified text. -/
theorem claim_C2 :
    (∀ l : RawLayer,
      ((extractLayerInfo l).type = .text ↔ l.text.isSome = true) ∧
      ((extractLayerInfo l).type = .group ↔
        l.text.isSome = false ∧ (l.childrenPresent && !l.children.isEmpty) = true) ∧
      ((extractLayerInfo l).type = .image ↔
        l.text.isSome = false ∧ (l.childrenPresent && !l.children.isEmpty) = false ∧
          l.canvas = true) ∧
      ((extractLayerInfo l).type = .shape ↔
        l.text.isSome = false ∧ (l.childrenPresent && !l.children.isEmpty) = false ∧
          l.canvas = false ∧ (l.vectorMask.isSome || l.vectorStroke.isSome) = true) ∧
      ((extractLayerInfo l).type = .unknown ↔
        l.text.isSome = false ∧ (l.childrenPresent && !l.children.isEmpty) = false ∧
          l.canvas = false ∧ (l.vectorMask.isSome || l.vectorStroke.isSome) = false)) ∧
    (extractLayerInfo
        (.mk (some "Both") none none none none none none (some ⟨some "Hi", none⟩) false none
          none none none true
          [.mk none none none none none none none none false none none none none false
              []])).type =
      .text := by
  constructor
  · intro l
    obtain ⟨name, hid, op, lf, tpp, ri, bo, tx, cv, vm, vs, vf, fx, cp, ch⟩ := l
    simp only [extractLayerInfo, LayerInfo.type, RawLayer.text, RawLayer.childrenPresent,
      RawLayer.children, RawLayer.canvas, RawLayer.vectorMask, RawLayer.vectorStroke]
    cases h1 : tx.isSome <;> cases h2 : cp && !ch.isEmpty <;> cases h3 : cv <;>
      cases h4 : vm.isSome || vs.isSome <;> simp_all
  · decide

theorem jsRound_26 : jsRound (26 : ℚ) = 26 := by
  rw [jsRound, jsFloor_eq_floor]
  norm_num

theorem anyColorToHex_rgb26 : anyColorToHex (some (.rgb 26 26 26)) = some "#1A1A1A" := by
  have h : anyColorToRgb (.rgb 26 26 26) = some (26, 26, 26) := by
    simp only [anyColorToRgb, jsRound_26]
  simp only [anyColorToHex, h, Option.map_some]
  decide

theorem colorToHex_rgb26 : colorToHex (some (.rgb 26 26 26)) = some "#1a1a1a" := by
  simp only [colorToHex, jsRound_26]
  decide

/-- C3 counterexample.  For the fill color `{r:26,g:26,b:26}` the tree
builder records `#1a1a1a` (via `colorToHex`, lower case), while the
normalizer `anyColorToHex` produces `#1A1A1A`; the two disagree, so the
builder does not resolve text fill color through the normalizer. -/
theorem claim_C3_counterexample :
    ((extractLayerInfo
            (.mk (some "Heading") none none none none none none
              (some ⟨some "Hello", some ⟨none, none, some (.rgb 26 26 26), none, none⟩⟩) false
              none none none none false [])).text.map
        (·.color)) =
      some (some "#1a1a1a") ∧
    anyColorToHex (some (.rgb 26 26 26)) = some "#1A1A1A" ∧
    (decide
        (((extractLayerInfo
                  (.mk (some "Heading") none none none none none none
                    (some ⟨some "Hello", some ⟨none, none, some (.rgb 26 26 26), none, none⟩⟩)
                    false none none none none false [])).text.map
              (·.color)) =
          some (anyColorToHex (some (.rgb 26 26 26))))) =
      false := by
  have hrec :
      ((extractLayerInfo
            (.mk (some "Heading") none none none none none none
              (some ⟨some "Hello", some ⟨none, none, some (.rgb 26 26 26), none, none⟩⟩) false
              none none none none false [])).text.map
          (·.color)) =
        some (colorToHex (some (.rgb 26 26 26))) := rfl
  refine ⟨?_, anyColorToHex_rgb26, ?_⟩
  · rw [hrec, colorToHex_rgb26]
  · rw [hrec, colorToHex_rgb26, anyColorToHex_rgb26]
    decide

/-- C3 amended.  The builder resolves a text layer's fill color with its own
helper `colorToHex`, not the normalizer: `colorToHex` handles only the
fractional-RGB and integer-RGB encodings (returning none on the grayscale,
HSB, Lab and CMYK shapes) and emits unclamped lower-case hex; on RGB inputs
whose rounded channels lie in `[0,255]` it agrees with `anyColorToHex` up to
letter case. -/
theorem claim_C3_amended :
    (∀ (l : RawLayer) (t : RawText), l.text = some t →
        (extractLayerInfo l).text = some (extractTextInfo t) ∧
          (extractTextInfo t).color = colorToHex (t.style.bind (·.fillColor))) ∧
    (∀ r g b : ℚ,
        0 ≤ jsRound r → jsRound r ≤ 255 → 0 ≤ jsRound g → jsRound g ≤ 255 → 0 ≤ jsRound b →
          jsRound b ≤ 255 →
          (colorToHex (some (.rgb r g b))).map jsToUpper = anyColorToHex (some (.rgb r g b))) ∧
    (∀ fr fg fb : ℚ,
        0 ≤ jsRound (fr * 255) → jsRound (fr * 255) ≤ 255 → 0 ≤ jsRound (fg * 255) →
          jsRound (fg * 255) ≤ 255 → 0 ≤ jsRound (fb * 255) → jsRound (fb * 255) ≤ 255 →
          (colorToHex (some (.frgb fr fg fb))).map jsToUpper =
            anyColorToHex (some (.frgb fr fg fb))) ∧
    (∀ k : ℚ, colorToHex (some (.gray k)) = none) ∧
    (∀ h s b : ℚ, colorToHex (some (.hsb h s b)) = none) ∧
    (∀ l a b : ℚ, colorToHex (some (.lab l a b)) = none) ∧
    (∀ c m y k : ℚ, colorToHex (some (.cmyk c m y k)) = none) := by
  refine ⟨?_, ?_, ?_, fun _ => rfl, fun _ _ _ => rfl, fun _ _ _ => rfl, fun _ _ _ _ => rfl⟩
  · intro l t h
    obtain ⟨name, hid, op, lf, tpp, ri, bo, tx, cv, vm, vs, vf, fx, cp, ch⟩ := l
    obtain rfl : tx = some t := h
    exact ⟨rfl, rfl⟩
  · intro r g b h1 h2 h3 h4 h5 h6
    simp only [colorToHex, anyColorToHex, anyColorToRgb, Option.map, formatHexUpper,
      clamp255_eq_self h1 h2, clamp255_eq_self h3 h4, clamp255_eq_self h5 h6]
  · intro fr fg fb h1 h2 h3 h4 h5 h6
    simp only [colorToHex, anyColorToHex, anyColorToRgb, Option.map, formatHexUpper,
      clamp255_eq_self h1 h2, clamp255_eq_self h3 h4, clamp255_eq_self h5 h6]

/-- Witness for C3 amended: concrete application at `{r:26,g:26,b:26}` and at
a grayscale value. -/
theorem claim_C3_amended_witness :
    (colorToHex (some (.rgb 26 26 26))).map jsToUpper = anyColorToHex (some (.rgb 26 26 26)) ∧
    colorToHex (some (.gray 0)) = none := by
  refine ⟨claim_C3_amended.2.1 26 26 26 ?_ ?_ ?_ ?_ ?_ ?_, claim_C3_amended.2.2.2.1 0⟩ <;>
    rw [jsRound_26] <;> norm_num

/-- C4. For every built layer, opacity is the raw byte divided by 255 when
present and 1 otherwise, and (for raw bytes in `[0,255]`, the Decoder's
contract) the result always lies in `[0,1]`. -/
theorem claim_C4 (l : RawLayer) (h : ∀ v : ℚ, l.opacity = some v → 0 ≤ v ∧ v ≤ 255) :
    (extractLayerInfo l).opacity =
      (match l.opacity with
        | some v => v / 255
        | none => 1) ∧
    0 ≤ (extractLayerInfo l).opacity ∧ (extractLayerInfo l).opacity ≤ 1 := by
  obtain ⟨name, hid, op, lf, tpp, ri, bo, tx, cv, vm, vs, vf, fx, cp, ch⟩ := l
  simp only [RawLayer.opacity] at h ⊢
  match op with
  | none =>
    refine ⟨rfl, ?_, ?_⟩
    · show (0 : ℚ) ≤ 1
      norm_num
    · show (1 : ℚ) ≤ 1
      norm_num
  | some v =>
    obtain ⟨h0, h255⟩ := h v rfl
    refine ⟨rfl, ?_, ?_⟩
    · show 0 ≤ v / 255
      positivity
    · show v / 255 ≤ 1
      rw [div_le_one (by norm_num)]
      exact h255

/-- Witness for C4 at a concrete layer with raw opacity byte 128. -/
theorem claim_C4_witness :
    (extractLayerInfo
          (.mk (some "L") none (some 128) none none none none none false none none none none
            false [])).opacity =
        (match
          (RawLayer.mk (some "L") none (some 128) none none none none none false none none none
              none false []).opacity with
          | some v => v / 255
          | none => 1) ∧
      0 ≤ (extractLayerInfo
            (.mk (some "L") none (some 128) none none none none none false none none none none
              false [])).opacity ∧
        (extractLayerInfo
              (.mk (some "L") none (some 128) none none none none none false none none none none
                false [])).opacity ≤ 1 :=
  claim_C4
    (.mk (some "L") none (some 128) none none none none none false none none none none false [])
    (by
      intro v hv
      injection hv with hv
      subst hv
      norm_num)

/-- C5 counterexample.  A vector layer whose vector fill is a gradient gets
`fill="#000000"` (the black fallback), not `fill="none"`: the `"none"` fill
line appears nowhere in the emitted SVG. -/
theorem claim_C5_counterexample :
    vectorLayerToSvgParts
        (.mk (some "Grad") none none none none none none none false (some ⟨[]⟩) none
          (some (.gradient ⟨none, []⟩)) none false []) 100 50 =
      .ok
        ["<?xml version=\"1.0\" encoding=\"UTF-8\"?>",
          "<svg xmlns=\"http://www.w3.org/2000/svg\" width=\"100\" height=\"50\" viewBox=\"0 0 100 50\">",
          "  <path d=\"\"", "        fill=\"#000000\"", "  />", "</svg>"] ∧
    (["<?xml version=\"1.0\" encoding=\"UTF-8\"?>",
          "<svg xmlns=\"http://www.w3.org/2000/svg\" width=\"100\" height=\"50\" viewBox=\"0 0 100 50\">",
          "  <path d=\"\"", "        fill=\"#000000\"", "  />",
          "</svg>"].contains
        "        fill=\"none\"") =
      false :=
  ⟨rfl, by decide⟩

/-- C5 amended.  The fill attribute is `"none"` exactly when the layer has no
vector fill at all; a gradient vector fill falls back to `"#000000"`
(because `vectorContentToColor` returns `undefined` on gradients and the
source ORs in black before checking `layer.vectorFill`). -/
theorem claim_C5_amended :
    (∀ (layer : RawLayer) (w h : ℕ) (vm : VectorMask) (g : GradientDesc),
        layer.vectorMask = some vm → layer.vectorFill = some (.gradient g) →
          (vectorLayerToSvgParts layer w h).map (fun ps => ps.getD 3 "") =
            .ok "        fill=\"#000000\"") ∧
    (∀ (layer : RawLayer) (w h : ℕ) (vm : VectorMask),
        layer.vectorMask = some vm → layer.vectorFill = none →
          (vectorLayerToSvgParts layer w h).map (fun ps => ps.getD 3 "") =
            .ok "        fill=\"none\"") := by
  constructor
  · intro layer w h vm g hm hf
    obtain ⟨name, hid, op, lf, tpp, ri, bo, tx, cv, vmf, vs, vf, fx, cp, ch⟩ := layer
    obtain rfl : vmf = some vm := hm
    obtain rfl : vf = some (.gradient g) := hf
    rfl
  · intro layer w h vm hm hf
    obtain ⟨name, hid, op, lf, tpp, ri, bo, tx, cv, vmf, vs, vf, fx, cp, ch⟩ := layer
    obtain rfl : vmf = some vm := hm
    obtain rfl : vf = none := hf
    rfl

/-- Witness for C5 amended at concrete layers (a gradient-filled vector
layer and a fill-less vector layer). -/
theorem claim_C5_amended_witness :
    (vectorLayerToSvgParts
          (.mk (some "Grad") none none none none none none none false (some ⟨[]⟩) none
            (some (.gradient ⟨none, []⟩)) none false []) 100 50).map
        (fun ps => ps.getD 3 "") =
      .ok "        fill=\"#000000\"" ∧
    (vectorLayerToSvgParts
          (.mk (some "NoFill") none none none none none none none false (some ⟨[]⟩) none none
            none false []) 100 50).map
        (fun ps => ps.getD 3 "") =
      .ok "        fill=\"none\"" :=
  ⟨claim_C5_amended.1 _ 100 50 ⟨[]⟩ ⟨none, []⟩ rfl rfl,
    claim_C5_amended.2 _ 100 50 ⟨[]⟩ rfl rfl⟩

/-- C6. A single closed 2-knot path yields `M … C … C … Z` (two curve
segments, the second the wrap-around from the last knot back to the first,
then a close command); the same knots marked open omit the wrap-around
segment and the `Z`; an empty knot sequence contributes nothing. -/
theorem claim_C6 :
    (∀ (k0 k1 : Knot) (w h : ℕ),
        bezierPathsToSvgPath [⟨[k0, k1], false⟩] w h =
          String.intercalate " " [moveCmd k0 w h, curveCmd k0 k1 w h, curveCmd k1 k0 w h, "Z"]) ∧
    (∀ (k0 k1 : Knot) (w h : ℕ),
        bezierPathsToSvgPath [⟨[k0, k1], true⟩] w h =
          String.intercalate " " [moveCmd k0 w h, curveCmd k0 k1 w h]) ∧
    (∀ (b : Bool) (w h : ℕ) (rest : List BezierPath),
        bezierPathsToSvgPathParts (⟨[], b⟩ :: rest) w h = bezierPathsToSvgPathParts rest w h) := by
  refine ⟨?_, ?_, ?_⟩
  · intro k0 k1 w h
    simp [bezierPathsToSvgPath, bezierPathsToSvgPathParts, bezierPathParts, List.range_succ]
  · intro k0 k1 w h
    simp [bezierPathsToSvgPath, bezierPathsToSvgPathParts, bezierPathParts, List.range_succ]
  · intro b w h rest
    simp [bezierPathsToSvgPathParts, bezierPathParts]

theorem truncateNode_depth_zero :
    ∀ layers : List LayerInfo, forestDepth layers = 0 → layers.map truncateNode = layers
  | [], _ => rfl
  | .mk n t v o b tx none :: ls, h => by
    have e1 : forestDepth (LayerInfo.mk n t v o b tx none :: ls) =
        max (layerDepth (LayerInfo.mk n t v o b tx none)) (forestDepth ls) := rfl
    rw [e1] at h
    have h1 := Nat.le_max_right (layerDepth (LayerInfo.mk n t v o b tx none)) (forestDepth ls)
    have h2 : forestDepth ls = 0 := by omega
    show truncateNode (LayerInfo.mk n t v o b tx none) :: List.map truncateNode ls = _
    rw [truncateNode_depth_zero ls h2]
    rfl
  | .mk n t v o b tx (some cs) :: ls, h => by
    exfalso
    have e1 : forestDepth (LayerInfo.mk n t v o b tx (some cs) :: ls) =
        max (1 + forestDepth cs) (forestDepth ls) := rfl
    rw [e1] at h
    have := Nat.le_max_left (1 + forestDepth cs) (forestDepth ls)
    omega

/-- Function `limitDepth` is the identity whenever the remaining depth budget covers
the whole forest. -/
theorem limitDepth_id : ∀ (layers : List LayerInfo) (c m : ℕ),
    forestDepth layers + c ≤ m → limitDepth layers c m = layers
  | [], c, m, _ => by
    unfold limitDepth
    split <;> rfl
  | .mk n t v o b tx none :: ls, c, m, h => by
    have e1 : forestDepth (LayerInfo.mk n t v o b tx none :: ls) =
        max (layerDepth (.mk n t v o b tx none)) (forestDepth ls) := rfl
    rw [e1] at h
    have hl := Nat.le_max_left (layerDepth (LayerInfo.mk n t v o b tx none)) (forestDepth ls)
    have hr := Nat.le_max_right (layerDepth (LayerInfo.mk n t v o b tx none)) (forestDepth ls)
    by_cases hcm : m ≤ c
    · have h0 : forestDepth (LayerInfo.mk n t v o b tx none :: ls) = 0 := by rw [e1]; omega
      unfold limitDepth
      rw [if_pos hcm]
      exact truncateNode_depth_zero _ h0
    · unfold limitDepth
      rw [if_neg hcm]
      show LayerInfo.mk n t v o b tx none :: limitDepth ls c m = _
      rw [limitDepth_id ls c m (by omega)]
  | .mk n t v o b tx (some cs) :: ls, c, m, h => by
    have e1 : forestDepth (LayerInfo.mk n t v o b tx (some cs) :: ls) =
        max (1 + forestDepth cs) (forestDepth ls) := rfl
    rw [e1] at h
    have hl := Nat.le_max_left (1 + forestDepth cs) (forestDepth ls)
    have hr := Nat.le_max_right (1 + forestDepth cs) (forestDepth ls)
    have hcm : ¬m ≤ c := by omega
    unfold limitDepth
    rw [if_neg hcm]
    show LayerInfo.mk n t v o b tx (some (limitDepth cs (c + 1) m)) :: limitDepth ls c m = _
    rw [limitDepth_id cs (c + 1) m (by omega), limitDepth_id ls c m (by omega)]

/-- C7. `limitDepth(tree, 0, 0)` replaces every top-level node's children
(when it has any) with exactly one placeholder node carrying the true child
count, and for any `n` at least the maximum tree depth,
`limitDepth(tree, 0, n)` is the unmodified tree. -/
theorem claim_C7 :
    (∀ layers : List LayerInfo,
        limitDepth layers 0 0 =
          layers.map fun l =>
            match l with
            | .mk name ty vis op bd tx (some (c :: cs)) =>
              .mk name ty vis op bd tx
                (some
                  [.mk ("... (" ++ toString (c :: cs).length ++ " children)") .unknown true 1
                      ⟨0, 0, 0, 0⟩ none none])
            | .mk name ty vis op bd tx _ => .mk name ty vis op bd tx none) ∧
    (∀ (layers : List LayerInfo) (n : ℕ),
        forestDepth layers ≤ n → limitDepth layers 0 n = layers) := by
  constructor
  · intro layers
    unfold limitDepth
    rw [if_pos (Nat.le_refl 0)]
    apply List.map_congr_left
    intro l _
    match l with
    | .mk name ty vis op bd tx none => rfl
    | .mk name ty vis op bd tx (some []) => rfl
    | .mk name ty vis op bd tx (some (c :: cs)) => rfl
  · intro layers n h
    exact limitDepth_id layers 0 n (by omega)

/-- Witness for C7 at a concrete two-level tree with depth bound 2. -/
theorem claim_C7_witness :
    limitDepth
        [.mk "A" .group true 1 ⟨0, 0, 0, 0⟩ none
            (some [.mk "B" .unknown true 1 ⟨0, 0, 0, 0⟩ none none])] 0 2 =
      [.mk "A" .group true 1 ⟨0, 0, 0, 0⟩ none
          (some [.mk "B" .unknown true 1 ⟨0, 0, 0, 0⟩ none none])] ∧
    forestDepth
        [.mk "A" .group true 1 ⟨0, 0, 0, 0⟩ none
            (some [.mk "B" .unknown true 1 ⟨0, 0, 0, 0⟩ none none])] ≤ 2 :=
  ⟨claim_C7.2 _ 2 (by simp [forestDepth, layerDepth]), by simp [forestDepth, layerDepth]⟩

theorem mem_insertUnique {acc : List String} {x y : String} :
    y ∈ insertUnique acc x ↔ y ∈ acc ∨ y = x := by
  unfold insertUnique
  split
  · rename_i hx
    constructor
    · exact Or.inl
    · rintro (hy | rfl)
      · exact hy
      · exact hx
  · simp

theorem nodup_insertUnique {acc : List String} (h : acc.Nodup) (x : String) :
    (insertUnique acc x).Nodup := by
  unfold insertUnique
  split
  · exact h
  · rename_i hx
    simp [List.nodup_append, h, hx]

theorem nodup_foldl_insertUnique :
    ∀ (l acc : List String), acc.Nodup → (l.foldl insertUnique acc).Nodup
  | [], _, h => h
  | x :: xs, _, h => nodup_foldl_insertUnique xs _ (nodup_insertUnique h x)

theorem mem_foldl_insertUnique :
    ∀ (l acc : List String) (y : String), y ∈ l.foldl insertUnique acc ↔ y ∈ acc ∨ y ∈ l
  | [], _, _ => by simp
  | x :: xs, acc, y => by
    rw [List.foldl_cons, mem_foldl_insertUnique xs _ y, mem_insertUnique, List.mem_cons]
    tauto

/-- C8. For every layer tree the palette's `uniqueColors` is sorted
ascending, duplicate-free, and contains exactly the hexes occurring among
`solidColors` (gradient stop colors do not contribute). -/
theorem claim_C8 (layers : List RawLayer) :
    (extractAllColors layers).uniqueColors.Sorted (· ≤ ·) ∧
    (extractAllColors layers).uniqueColors.Nodup ∧
    (∀ x : String,
        x ∈ (extractAllColors layers).uniqueColors ↔
          x ∈ (extractAllColors layers).solidColors.map (·.hex)) := by
  have hu : (extractAllColors layers).uniqueColors =
      ((jsSetDedup ((extractAllColors layers).solidColors.map (·.hex))).insertionSort
        (· ≤ ·)) := rfl
  refine ⟨?_, ?_, ?_⟩
  · rw [hu]
    exact List.sorted_insertionSort _ _
  · rw [hu]
    exact (List.perm_insertionSort _ _).symm.nodup
      (nodup_foldl_insertUnique _ [] List.nodup_nil)
  · intro x
    rw [hu, List.mem_insertionSort, jsSetDedup, mem_foldl_insertUnique]
    simp

theorem optHead_concat : ∀ s : List LayerInfo, (s[0]?).toList ++ (s[1]?).toList ++ s.drop 2 = s
  | [] => rfl
  | [_] => rfl
  | _ :: _ :: _ => by simp

/-- C9. The hero classifier's heading/subheading/body are the scope's text
layers sorted descending by font size (heading first, subheading second,
remainder body); with no text layers all three are empty; and every direct
layer of the scope whose lower-cased name contains a CTA keyword (such as
"Submit Button") is collected into `cta`. -/
theorem claim_C9 :
    (∀ heroLayers : List LayerInfo,
        ((classifyHero heroLayers).heading.toList ++ (classifyHero heroLayers).subheading.toList ++
              (classifyHero heroLayers).body).Perm
            (getTextLayers heroLayers) ∧
          ((classifyHero heroLayers).heading.toList ++
              (classifyHero heroLayers).subheading.toList ++
              (classifyHero heroLayers).body).Sorted
            fun a b => fontSizeKey b ≤ fontSizeKey a) ∧
    (∀ heroLayers : List LayerInfo,
        getTextLayers heroLayers = [] →
          (classifyHero heroLayers).heading = none ∧
            (classifyHero heroLayers).subheading = none ∧ (classifyHero heroLayers).body = []) ∧
    (∀ (heroLayers : List LayerInfo) (l : LayerInfo),
        l ∈ heroLayers → (ctaKeywords.any fun kw => jsIncludes (jsToLower l.name) kw) = true →
          l ∈ (classifyHero heroLayers).cta) ∧
    ((classifyHero
          [.mk "t12" .text true 1 ⟨0, 0, 0, 0⟩ (some ⟨"a", none, some 12, none, none, none⟩) none,
            .mk "t64" .text true 1 ⟨0, 0, 0, 0⟩ (some ⟨"b", none, some 64, none, none, none⟩) none,
            .mk "t24" .text true 1 ⟨0, 0, 0, 0⟩ (some ⟨"c", none, some 24, none, none,
              none⟩) none]).heading.bind
          (fun l => l.text.bind (·.fontSize)) =
        some 64 ∧
      (classifyHero
            [.mk "t12" .text true 1 ⟨0, 0, 0, 0⟩ (some ⟨"a", none, some 12, none, none, none⟩)
                none,
              .mk "t64" .text true 1 ⟨0, 0, 0, 0⟩ (some ⟨"b", none, some 64, none, none, none⟩)
                none,
              .mk "t24" .text true 1 ⟨0, 0, 0, 0⟩ (some ⟨"c", none, some 24, none, none,
                none⟩) none]).subheading.bind
          (fun l => l.text.bind (·.fontSize)) =
        some 24 ∧
      ((classifyHero
            [.mk "t12" .text true 1 ⟨0, 0, 0, 0⟩ (some ⟨"a", none, some 12, none, none, none⟩)
                none,
              .mk "t64" .text true 1 ⟨0, 0, 0, 0⟩ (some ⟨"b", none, some 64, none, none, none⟩)
                none,
              .mk "t24" .text true 1 ⟨0, 0, 0, 0⟩ (some ⟨"c", none, some 24, none, none,
                none⟩) none]).body.map
          (fun l => l.text.bind (·.fontSize))) =
        [some 12]) ∧
    ((classifyHero
          [.mk "Submit Button" .unknown true 1 ⟨0, 0, 0, 0⟩ none none]).cta.map
        (·.name)) =
      ["Submit Button"] := by
  refine ⟨?_, ?_, ?_, ?_, ?_⟩
  · intro heroLayers
    haveI hT : IsTotal LayerInfo (fun a b => fontSizeKey b ≤ fontSizeKey a) :=
      ⟨fun a b => le_total (fontSizeKey b) (fontSizeKey a)⟩
    haveI hTr : IsTrans LayerInfo (fun a b => fontSizeKey b ≤ fontSizeKey a) :=
      ⟨fun _ _ _ hab hbc => le_trans hbc hab⟩
    have he : (classifyHero heroLayers).heading.toList ++
        (classifyHero heroLayers).subheading.toList ++ (classifyHero heroLayers).body =
        sortByFontSizeDesc (getTextLayers heroLayers) :=
      optHead_concat _
    rw [he]
    exact ⟨List.perm_insertionSort _ _, List.sorted_insertionSort _ _⟩
  · intro heroLayers h
    simp [classifyHero, h, sortByFontSizeDesc]
  · intro heroLayers l hmem hname
    simp only [classifyHero]
    rw [List.mem_filter]
    exact ⟨hmem, hname⟩
  · refine ⟨?_, ?_, ?_⟩ <;>
      norm_num [classifyHero, getTextLayers, getTextLayersHead, sortByFontSizeDesc,
        List.insertionSort, List.orderedInsert, fontSizeKey, LayerInfo.text]
  · decide

/-- Witness for C9's universally quantified parts at a concrete scope. -/
theorem claim_C9_witness :
    (classifyHero ([] : List LayerInfo)).heading = none ∧
      (classifyHero ([] : List LayerInfo)).subheading = none ∧
      (classifyHero ([] : List LayerInfo)).body = [] ∧
      LayerInfo.mk "Submit Button" .unknown true 1 ⟨0, 0, 0, 0⟩ none none ∈
        (classifyHero [LayerInfo.mk "Submit Button" .unknown true 1 ⟨0, 0, 0, 0⟩ none none]).cta := by
  obtain ⟨h1, h2, h3⟩ := claim_C9.2.1 [] rfl
  refine ⟨h1, h2, h3, ?_⟩
  exact claim_C9.2.2.1 [LayerInfo.mk "Submit Button" .unknown true 1 ⟨0, 0, 0, 0⟩ none none]
    (LayerInfo.mk "Submit Button" .unknown true 1 ⟨0, 0, 0, 0⟩ none none) (by simp) (by decide)

theorem findVectorLayer_mask :
    ∀ (layers : List RawLayer) (q : String) (l : RawLayer),
      findVectorLayer layers q = some l → l.vectorMask.isSome = true
  | [], q, l, h => by simp [findVectorLayer] at h
  | .mk n hid op lf tp ri bo tx cv vm vs vf fx cp ch :: ls, q, l, h => by
    simp only [findVectorLayer, findVectorLayerHead] at h
    split at h
    · rename_i found hfound
      obtain rfl : found = l := Option.some.inj h
      split at hfound
      · rename_i hcond
        obtain rfl : RawLayer.mk n hid op lf tp ri bo tx cv vm vs vf fx cp ch = found :=
          Option.some.inj hfound
        simp only [Bool.and_eq_true] at hcond
        exact hcond.2
      · split at hfound
        · exact findVectorLayer_mask ch q found hfound
        · exact absurd hfound (by simp)
    · exact findVectorLayer_mask ls q l h

theorem getAllVectorLayers_mask :
    ∀ (layers : List RawLayer) (l : RawLayer),
      l ∈ getAllVectorLayers layers → l.vectorMask.isSome = true
  | [], l, h => by simp [getAllVectorLayers] at h
  | .mk n hid op lf tp ri bo tx cv vm vs vf fx cp ch :: ls, l, h => by
    simp only [getAllVectorLayers, getAllVectorLayersHead] at h
    rw [List.mem_append, List.mem_append] at h
    rcases h with (h | h) | h
    · split at h
      · rename_i hvm
        obtain rfl : l = RawLayer.mk n hid op lf tp ri bo tx cv vm vs vf fx cp ch :=
          List.mem_singleton.mp h
        exact hvm
      · exact absurd h (List.not_mem_nil l)
    · split at h
      · exact getAllVectorLayers_mask ch l h
      · exact absurd h (List.not_mem_nil l)
    · exact getAllVectorLayers_mask ls l h

/-- C10. Both vector-layer lookups only ever return layers that carry a
vector mask (a name-matching layer without one is skipped and its
descendants are still searched, as the concrete nested example shows), so
invoking `vectorLayerToSvg` on such a layer always succeeds — its
"Layer does not have vector data" error branch is unreachable. -/
theorem claim_C10 :
    (∀ (layers : List RawLayer) (q : String) (l : RawLayer),
        findVectorLayer layers q = some l → l.vectorMask.isSome = true) ∧
    (∀ (layers : List RawLayer) (l : RawLayer),
        l ∈ getAllVectorLayers layers → l.vectorMask.isSome = true) ∧
    (∀ (l : RawLayer) (w h : ℕ),
        l.vectorMask.isSome = true → ∃ s, vectorLayerToSvg l w h = .ok s) ∧
    ((findVectorLayer
          [.mk (some "Icon Group") none none none none none none none false none none none none
              true
              [.mk (some "Inner Icon") none none none none none none none false (some ⟨[]⟩) none
                  none none false []]]
          "icon").map
        (·.name)) =
      some (some "Inner Icon") := by
  refine ⟨findVectorLayer_mask, getAllVectorLayers_mask, ?_, ?_⟩
  · intro l w h hm
    obtain ⟨n, hid, op, lf, tp, ri, bo, tx, cv, vm, vs, vf, fx, cp, ch⟩ := l
    simp only [RawLayer.vectorMask] at hm
    match vm, hm with
    | some vmv, _ => exact ⟨_, rfl⟩
  · decide

/-- Witness for C10 at a concrete vector layer found by the lookup. -/
theorem claim_C10_witness :
    (RawLayer.mk (some "Inner Icon") none none none none none none none false (some ⟨[]⟩) none
          none none false []).vectorMask.isSome =
        true ∧
      ∃ s,
        vectorLayerToSvg
            (RawLayer.mk (some "Inner Icon") none none none none none none none false
              (some ⟨[]⟩) none none none false []) 10 10 =
          .ok s :=
  ⟨claim_C10.1
      [RawLayer.mk (some "Inner Icon") none none none none none none none false (some ⟨[]⟩) none
          none none false []]
      "icon"
      (RawLayer.mk (some "Inner Icon") none none none none none none none false (some ⟨[]⟩) none
        none none false [])
      rfl,
    claim_C10.2.2.1
      (RawLayer.mk (some "Inner Icon") none none none none none none none false (some ⟨[]⟩) none
        none none false [])
      10 10 rfl⟩

end PsdMcp
